import Mathlib

/-!
# Verification of the CodeRev review pipeline core

Shallow embedding of the review-pipeline core of the CodeRev repository:
the unified-diff parser (`src/services/review/diff_parser.py`), the
per-file review aggregation and pipeline orchestration
(`src/services/review/pipeline.py`), and the LLM provider response
parsing (`src/services/llm/anthropic.py`, `src/services/llm/ollama.py`).

Modelling conventions:
* Python `int` is modelled as `Nat` (line counters, token counts — all
  non-negative in the source) or `Int` where the source may produce
  negative values; Python `float` cost fields are modelled as `ℚ`.
* Fallible Python code is modelled with `Except`/`Option`: an
  `Except.error` value stands for an uncaught Python exception.
* External libraries (the `re` regex module on the two provider-response
  patterns, `json.loads`) are modelled either concretely (the four diff
  regexes, whose exact semantics the parser depends on) or as function
  parameters (the JSON decoder and the provider-response regex searches,
  whose exact behaviour no claim depends on).
* Python's `\d`, `str.lower`/`str.upper` and `str.strip` are modelled on
  ASCII; the source is only ever fed ASCII-relevant data at these points
  and no claim depends on non-ASCII behaviour of these helpers.
-/

namespace CodeRev

/-! ## Data model of `diff_parser.py` -/

/-- `LineType` enum of `diff_parser.py`. -/
inductive LineType where
  | context
  | addition
  | deletion
deriving DecidableEq

/-- `DiffLine` dataclass: a single line in a diff. -/
structure DiffLine where
  type : LineType
  content : String
  old_line_no : Option Nat := none
  new_line_no : Option Nat := none
deriving DecidableEq

/-- `DiffLine.__str__`: the raw patch line, marker re-attached. -/
def DiffLine.render (l : DiffLine) : String :=
  (match l.type with
   | .context => " "
   | .addition => "+"
   | .deletion => "-") ++ l.content

/-- `Hunk` dataclass: a hunk (section) of changes in a diff. -/
structure Hunk where
  old_start : Nat
  old_count : Nat
  new_start : Nat
  new_count : Nat
  header : String
  lines : List DiffLine := []
deriving DecidableEq

/-- The comprehension filter of `Hunk.get_new_line_numbers`: the
new-file line number of a line, when the line is an addition carrying
one. -/
def additionLineNo (l : DiffLine) : Option Nat :=
  match l.type, l.new_line_no with
  | .addition, some n => some n
  | _, _ => none

/-- `Hunk.get_new_line_numbers`: all new-file line numbers that have
additions. -/
def Hunk.get_new_line_numbers (h : Hunk) : List Nat :=
  h.lines.filterMap additionLineNo

/-- The `status` literal of `FileDiff`. -/
inductive FileStatus where
  | added
  | modified
  | deleted
  | renamed
deriving DecidableEq

/-- `FileDiff` dataclass: parsed diff for a single file. -/
structure FileDiff where
  path : String
  status : FileStatus
  old_path : Option String := none
  hunks : List Hunk := []
deriving DecidableEq

/-- `FileDiff.additions`: count of added lines. -/
def FileDiff.additions (fd : FileDiff) : Nat :=
  ((fd.hunks.map fun h => (h.lines.filter fun l => l.type = .addition).length)).sum

/-- `FileDiff.deletions`: count of deleted lines. -/
def FileDiff.deletions (fd : FileDiff) : Nat :=
  ((fd.hunks.map fun h => (h.lines.filter fun l => l.type = .deletion).length)).sum

/-- `FileDiff.to_patch_string`: reconstruct the patch string for this file. -/
def FileDiff.to_patch_string (fd : FileDiff) : String :=
  String.intercalate "\n"
    (fd.hunks.map (fun h => h.header :: h.lines.map DiffLine.render)).flatten

/-- Python `sorted(set(xs))` on natural numbers: de-duplicate, then sort
ascending. -/
def pySortedSet (xs : List Nat) : List Nat :=
  xs.dedup.insertionSort (· ≤ ·)

/-- `FileDiff.get_changed_line_numbers`: all line numbers in the new file
that have changes (the source extends one list across all hunks and
returns `sorted(set(...))`). -/
def FileDiff.get_changed_line_numbers (fd : FileDiff) : List Nat :=
  pySortedSet (fd.hunks.map Hunk.get_new_line_numbers).flatten

/-! ## The `DiffParser` regular expressions

The four patterns of `DiffParser` are modelled concretely on `List Char`.
Each model function returns the captured groups exactly as Python's
greedy matching produces them. -/

/-- Whitespace characters removed by Python `str.strip` (ASCII range). -/
def pyIsSpace (c : Char) : Bool :=
  c = ' ' || c = '\t' || c = '\n' || c = '\x0d' || c = '\x0b' || c = '\x0c'

/-- Split on the last occurrence of the three-character separator
`" b/"`.  This is what the greedy `(.*) b/(.*)` of
`FILE_HEADER_PATTERN` captures: group 1 extends to the last `" b/"`. -/
def splitLastBSlash : List Char → Option (List Char × List Char)
  | [] => none
  | c :: rest =>
    match splitLastBSlash rest with
    | some (a, b) => some (c :: a, b)
    | none =>
      match c, rest with
      | ' ', 'b' :: '/' :: tail => some ([], tail)
      | _, _ => none

/-- `FILE_HEADER_PATTERN = ^diff --git a/(.*) b/(.*)$` applied to one
line (which contains no newline): returns `(old, new)` path groups. -/
def matchFileHeader (cs : List Char) : Option (List Char × List Char) :=
  if ("diff --git a/".toList).isPrefixOf cs then
    splitLastBSlash (cs.drop 13)
  else none

/-- `OLD_FILE_PATTERN = ^--- (?:a/)?(.*)$`: returns the path group. -/
def matchOldFile (cs : List Char) : Option (List Char) :=
  if ("--- ".toList).isPrefixOf cs then
    let r := cs.drop 4
    some (if (['a', '/']).isPrefixOf r then r.drop 2 else r)
  else none

/-- `NEW_FILE_PATTERN = ^\+\+\+ (?:b/)?(.*)$`: returns the path group. -/
def matchNewFile (cs : List Char) : Option (List Char) :=
  if ("+++ ".toList).isPrefixOf cs then
    let r := cs.drop 4
    some (if (['b', '/']).isPrefixOf r then r.drop 2 else r)
  else none

/-- Python `int` on a non-empty decimal digit string. -/
def digitsToNat (ds : List Char) : Nat :=
  ds.foldl (fun n c => n * 10 + (c.toNat - '0'.toNat)) 0

/-- The optional `(?:,(\d+))?` group of `HUNK_HEADER_PATTERN` followed by
`int(... or 1)`: consume `,digits` when present, else default the count
to 1 and leave the input in place (a lone `,` makes the following
literal fail, exactly as the regex backtracking does). -/
def optHunkCount (cs : List Char) : Nat × List Char :=
  match cs with
  | ',' :: rest =>
    let p := rest.span Char.isDigit
    if p.1 = [] then (1, cs) else (digitsToNat p.1, p.2)
  | _ => (1, cs)

/-- `HUNK_HEADER_PATTERN = ^@@ -(\d+)(?:,(\d+))? \+(\d+)(?:,(\d+))? @@(.*)$`
with the source's `int(group or 1)` defaults: returns
`(old_start, old_count, new_start, new_count)`. -/
def matchHunkHeader (cs : List Char) : Option (Nat × Nat × Nat × Nat) :=
  if ("@@ -".toList).isPrefixOf cs then
    let r0 := cs.drop 4
    let p1 := r0.span Char.isDigit
    if p1.1 = [] then none
    else
      let (oldCount, r2) := optHunkCount p1.2
      if (" +".toList).isPrefixOf r2 then
        let p3 := (r2.drop 2).span Char.isDigit
        if p3.1 = [] then none
        else
          let (newCount, r5) := optHunkCount p3.2
          if (" @@".toList).isPrefixOf r5 then
            some (digitsToNat p1.1, oldCount, digitsToNat p3.1, newCount)
          else none
      else none
  else none

/-! ## The `DiffParser.parse` loop

The source walks the split lines once, mutating `files`, `current_file`,
`current_hunk` (a reference to the last hunk appended to
`current_file.hunks`) and the two line counters.  The state is embedded
explicitly; the open hunk is kept in its own field of the in-progress
file and flushed into the hunk list when it closes (on the next hunk
header, the next file header, or the end of the input), which yields the
same hunk list in the same order as the in-place mutation. -/

/-- `str.split("\n")` on the character list of the input. -/
def splitLines : List Char → List (List Char)
  | [] => [[]]
  | c :: rest =>
    if c = '\n' then [] :: splitLines rest
    else
      match splitLines rest with
      | [] => [[c]]
      | l :: ls => (c :: l) :: ls

/-- The in-progress `current_file` together with the open
`current_hunk`. -/
structure CurFile where
  path : String
  status : FileStatus
  old_path : Option String
  hunks : List Hunk
  curHunk : Option Hunk
deriving DecidableEq

/-- Flush the open hunk and produce the `FileDiff` pushed to the result
list. -/
def CurFile.close (cf : CurFile) : FileDiff :=
  { path := cf.path, status := cf.status, old_path := cf.old_path,
    hunks := cf.hunks ++ cf.curHunk.toList }

/-- The mutable state of the `parse` loop. -/
structure ParseState where
  files : List FileDiff
  cur : Option CurFile
  oldNo : Nat
  newNo : Nat
deriving DecidableEq

/-- Append a diff line to the open hunk of the current file. -/
def CurFile.pushLine (cf : CurFile) (h : Hunk) (l : DiffLine) : CurFile :=
  { cf with curHunk := some { h with lines := h.lines ++ [l] } }

/-- One iteration of the `while` loop of `DiffParser.parse`, processing
one line.  The branches appear in source order: file header, old-file
marker, new-file marker, hunk header, then content lines. -/
def parseStep (s : ParseState) (cs : List Char) : ParseState :=
  match matchFileHeader cs with
  | some (oldP, newP) =>
    { files := s.files ++ (s.cur.map CurFile.close).toList,
      cur := some { path := ⟨newP⟩, status := .modified,
                    old_path := if oldP = newP then none else some ⟨oldP⟩,
                    hunks := [], curHunk := none },
      oldNo := s.oldNo, newNo := s.newNo }
  | none =>
    match s.cur with
    | none => s
    | some cf =>
      match matchOldFile cs with
      | some p =>
        { s with cur := some (if p = "/dev/null".toList
                              then { cf with status := .added } else cf) }
      | none =>
        match matchNewFile cs with
        | some p =>
          let cf' :=
            if p = "/dev/null".toList then { cf with status := .deleted }
            else if cf.old_path.isSome then { cf with status := .renamed }
            else cf
          { s with cur := some cf' }
        | none =>
          match matchHunkHeader cs with
          | some (os, ocnt, ns, ncnt) =>
            let newHunk : Hunk :=
              { old_start := os, old_count := ocnt, new_start := ns,
                new_count := ncnt, header := ⟨cs⟩, lines := [] }
            let cf' : CurFile :=
              { cf with hunks := cf.hunks ++ cf.curHunk.toList,
                        curHunk := some newHunk }
            { s with cur := some cf', oldNo := os, newNo := ns }
          | none =>
            match cf.curHunk with
            | none => s
            | some h =>
              if cs = [] then s
              else if (['+']).isPrefixOf cs && !(['+', '+', '+']).isPrefixOf cs then
                { s with
                  cur := some (cf.pushLine h
                    { type := .addition, content := ⟨cs.drop 1⟩,
                      new_line_no := some s.newNo }),
                  newNo := s.newNo + 1 }
              else if (['-']).isPrefixOf cs && !(['-', '-', '-']).isPrefixOf cs then
                { s with
                  cur := some (cf.pushLine h
                    { type := .deletion, content := ⟨cs.drop 1⟩,
                      old_line_no := some s.oldNo }),
                  oldNo := s.oldNo + 1 }
              else if ([' ']).isPrefixOf cs then
                { s with
                  cur := some (cf.pushLine h
                    { type := .context, content := ⟨cs.drop 1⟩,
                      old_line_no := some s.oldNo, new_line_no := some s.newNo }),
                  oldNo := s.oldNo + 1, newNo := s.newNo + 1 }
              else s

namespace DiffParser

/-- `DiffParser.parse`: parse a unified diff into structured `FileDiff`
values.  Total by construction (the source raises on no input). -/
def parse (diff_text : String) : List FileDiff :=
  if diff_text.toList.all pyIsSpace then []
  else
    let st := (splitLines diff_text.toList).foldl parseStep
      { files := [], cur := none, oldNo := 0, newNo := 0 }
    st.files ++ (st.cur.map CurFile.close).toList

/-- `DiffParser.filter_python_files`: keep only paths ending in `.py`. -/
def filter_python_files (files : List FileDiff) : List FileDiff :=
  files.filter fun f => (".py".toList).isSuffixOf f.path.toList

/-- `DiffParser.parse_and_filter_python`. -/
def parse_and_filter_python (diff_text : String) : List FileDiff :=
  filter_python_files (parse diff_text)

end DiffParser

/-! ## Counter-advancement specification for hunk lines

`runLines o n ls` replays the parser's two line counters over a hunk's
recorded lines, starting from `(o, n)`: a context line must carry both
current counters and advances both, an addition must carry only the
current new counter and advances only it, a deletion must carry only the
current old counter and advances only it.  `runLines h.old_start
h.new_start h.lines = some e` therefore states exactly that the hunk's
line numbers were assigned by resetting the counters to the hunk
header's start values and advancing them line by line. -/

/-- One counter step over a recorded diff line (`none` when the line's
numbers do not agree with the counters). -/
def lineStep (oc : Nat × Nat) (l : DiffLine) : Option (Nat × Nat) :=
  match l.type with
  | .addition =>
    if l.old_line_no = none ∧ l.new_line_no = some oc.2 then
      some (oc.1, oc.2 + 1)
    else none
  | .deletion =>
    if l.old_line_no = some oc.1 ∧ l.new_line_no = none then
      some (oc.1 + 1, oc.2)
    else none
  | .context =>
    if l.old_line_no = some oc.1 ∧ l.new_line_no = some oc.2 then
      some (oc.1 + 1, oc.2 + 1)
    else none

/-- Replay the counters over a list of recorded lines. -/
def runLines (o n : Nat) : List DiffLine → Option (Nat × Nat)
  | [] => some (o, n)
  | l :: ls =>
    match lineStep (o, n) l with
    | none => none
    | some (o', n') => runLines o' n' ls

/-- A hunk whose recorded line numbers follow the counters from its
declared start values. -/
def HunkNumbered (h : Hunk) : Prop :=
  ∃ e, runLines h.old_start h.new_start h.lines = some e

/-- Invariant of an in-progress file: closed hunks are fully numbered,
and the open hunk's lines replay exactly to the loop's current
counters. -/
def CurOK (cf : CurFile) (o n : Nat) : Prop :=
  (∀ h ∈ cf.hunks, HunkNumbered h) ∧
  (∀ h, cf.curHunk = some h →
    runLines h.old_start h.new_start h.lines = some (o, n))

/-- Invariant of the whole parse state. -/
def StateInv (s : ParseState) : Prop :=
  (∀ fd ∈ s.files, ∀ h ∈ fd.hunks, HunkNumbered h) ∧
  (∀ cf, s.cur = some cf → CurOK cf s.oldNo s.newNo)

/-! ## Data model of `llm/base.py` -/

/-- `CommentCategory` enum. -/
inductive CommentCategory where
  | bug
  | security
  | performance
  | style
  | suggestion
  | documentation
deriving DecidableEq

/-- Enum lookup by value, `CommentCategory(s)`: `none` models the
`ValueError` raised on an unknown value. -/
def CommentCategory.ofValue? (s : String) : Option CommentCategory :=
  if s = "BUG" then some .bug
  else if s = "SECURITY" then some .security
  else if s = "PERFORMANCE" then some .performance
  else if s = "STYLE" then some .style
  else if s = "SUGGESTION" then some .suggestion
  else if s = "DOCUMENTATION" then some .documentation
  else none

/-- `CommentSeverity` enum. -/
inductive CommentSeverity where
  | critical
  | warning
  | info
deriving DecidableEq

/-- Enum lookup by value, `CommentSeverity(s)`. -/
def CommentSeverity.ofValue? (s : String) : Option CommentSeverity :=
  if s = "CRITICAL" then some .critical
  else if s = "WARNING" then some .warning
  else if s = "INFO" then some .info
  else none

/-- A JSON value, as produced by Python's `json.loads` (numbers are
collapsed to rationals; an object is its ordered key/value list). -/
inductive Json where
  | null
  | bool (b : Bool)
  | num (q : ℚ)
  | str (s : String)
  | arr (elems : List Json)
  | obj (entries : List (String × Json))

/-- `InlineComment` dataclass.  The dataclass performs no runtime type
validation, so the `body` field holds whatever JSON value the provider
response carried. -/
structure InlineComment where
  path : String
  line : Int
  body : Json
  category : CommentCategory := .suggestion
  severity : CommentSeverity := .info

/-- `ReviewRequest` dataclass. -/
structure ReviewRequest where
  diff : String
  file_path : String
  file_content : Option String := none
  context : Option String := none
  pr_title : Option String := none
  pr_description : Option String := none

/-- `ReviewResponse` dataclass.  The `verdict` is annotated
`Literal["approve", "request_changes", "comment"]` in the source but not
enforced at runtime, so it is modelled as a `String`; `cost_usd` is a
Python float, modelled as `ℚ`. -/
structure ReviewResponse where
  summary : String
  verdict : String
  comments : List InlineComment := []
  tokens_used : Nat := 0
  model : String := ""
  cost_usd : ℚ := 0

/-! ## `ReviewPipeline._aggregate_responses` -/

/-- `ReviewPipeline._aggregate_responses` (its unused `pr` parameter is
omitted): merge the per-file review responses into a single one. -/
def aggregate_responses (responses : List ReviewResponse) : ReviewResponse :=
  match responses with
  | [] =>
    { summary := "No files reviewed.", verdict := "comment", comments := [],
      tokens_used := 0, model := "", cost_usd := 0 }
  | r0 :: _ =>
    let all_comments := (responses.map (·.comments)).flatten
    let total_tokens := (responses.map (·.tokens_used)).sum
    let total_cost := (responses.map (·.cost_usd)).sum
    let verdicts := responses.map (·.verdict)
    let overall_verdict : String :=
      if "request_changes" ∈ verdicts then "request_changes"
      else if "comment" ∈ verdicts then "comment"
      else "approve"
    let combined_summary : String :=
      if responses.length = 1 then r0.summary
      else
        let summaries := responses.filterMap fun resp =>
          match resp.comments with
          | [] => none
          | c :: _ => some ("**" ++ c.path ++ "**: " ++ resp.summary)
        if summaries = [] then "All files look good!"
        else "### File Reviews\n\n" ++ String.intercalate "\n\n" summaries
    { summary := combined_summary, verdict := overall_verdict,
      comments := all_comments, tokens_used := total_tokens,
      model := r0.model, cost_usd := total_cost }

/-! ## Provider response parsing (`llm/anthropic.py`, `llm/ollama.py`)

`json.loads` and the two `re.search` calls are Python-stdlib
capabilities and are passed in as function parameters: `jsonLoads`
returns `none` on `JSONDecodeError`; `reFenced` models
`re.search(r"```json\s*(.*?)\s*```", text, re.DOTALL)` returning
group 1; `reBraces` models `re.search` of the brace-delimited pattern
returning group 0.  An `Except.error` models an uncaught Python
exception of the named kind. -/

/-- Kinds of uncaught Python exceptions arising in provider response
parsing. -/
inductive PyErr where
  | typeError
  | attributeError
  | parseError
deriving DecidableEq

/-- First-match association lookup in a JSON object's entries (Python
dict keys are unique; first match is faithful). -/
def jsonLookup : List (String × Json) → String → Option Json
  | [], _ => none
  | (k, v) :: rest, key => if k = key then some v else jsonLookup rest key

/-- Python `data.get(key, dflt)`: `AttributeError` unless `data` is a
dict. -/
def Json.pyGet (data : Json) (key : String) (dflt : Json) : Except PyErr Json :=
  match data with
  | .obj entries => .ok ((jsonLookup entries key).getD dflt)
  | _ => .error .attributeError

/-- Python `c[key]` on a comment entry: `TypeError` unless `c` is a
dict; `none` models the `KeyError` on a missing key (which the source
catches). -/
def Json.pyIndex (c : Json) (key : String) : Except PyErr (Option Json) :=
  match c with
  | .obj entries => .ok (jsonLookup entries key)
  | _ => .error .typeError

/-- Python `str.strip` on a character list (ASCII whitespace). -/
def pyStripList (cs : List Char) : List Char :=
  ((cs.dropWhile pyIsSpace).reverse.dropWhile pyIsSpace).reverse

/-- Python `str.strip`. -/
def pyStrip (s : String) : String :=
  ⟨pyStripList s.toList⟩

/-- Python `int(s)` on a string: optional sign and decimal digits after
stripping whitespace; `none` models the `ValueError` on anything else
(digit-grouping underscores, which Python also accepts, are not
modelled — no claim depends on them). -/
def pyIntOfString? (s : String) : Option Int :=
  match pyStripList s.toList with
  | '-' :: ds =>
    if ds ≠ [] ∧ ds.all Char.isDigit then some (-(digitsToNat ds : Int))
    else none
  | '+' :: ds =>
    if ds ≠ [] ∧ ds.all Char.isDigit then some (digitsToNat ds) else none
  | ds =>
    if ds ≠ [] ∧ ds.all Char.isDigit then some (digitsToNat ds) else none

/-- Python `int(x)` on a JSON value: numbers truncate toward zero,
booleans become 0/1, strings parse or raise `ValueError` (`none`, which
the source catches); anything else raises `TypeError`. -/
def pyInt (j : Json) : Except PyErr (Option Int) :=
  match j with
  | .num q => .ok (some (q.num.tdiv q.den))
  | .str s => .ok (pyIntOfString? s)
  | .bool b => .ok (some (if b then 1 else 0))
  | .null => .error .typeError
  | .arr _ => .error .typeError
  | .obj _ => .error .typeError

/-- ASCII lowering of one character (Python `str.lower` restricted to
ASCII). -/
def pyLowerChar (c : Char) : Char :=
  if 'A' ≤ c ∧ c ≤ 'Z' then Char.ofNat (c.toNat + 32) else c

/-- ASCII uppering of one character. -/
def pyUpperChar (c : Char) : Char :=
  if 'a' ≤ c ∧ c ≤ 'z' then Char.ofNat (c.toNat - 32) else c

/-- Python `x.lower()` on a JSON value: `AttributeError` unless a
string. -/
def pyStrLower (j : Json) : Except PyErr String :=
  match j with
  | .str s => .ok ⟨s.toList.map pyLowerChar⟩
  | _ => .error .attributeError

/-- Python `x.upper()` on a JSON value: `AttributeError` unless a
string. -/
def pyStrUpper (j : Json) : Except PyErr String :=
  match j with
  | .str s => .ok ⟨s.toList.map pyUpperChar⟩
  | _ => .error .attributeError

/-- The `dict[str, Any]` returned by `_parse_response`: the summary is
stored without validation, the verdict is normalized, the comments are
validated individually. -/
structure ParsedReview where
  summary : Json
  verdict : String
  comments : List InlineComment

/-- One iteration of the comment-validation loop shared by both
providers: builds an `InlineComment` from one entry, evaluating the
constructor arguments in source order; `ok none` models a
`KeyError`/`ValueError` caught by the loop's `except` (the entry is
skipped), `error` an uncaught `TypeError`/`AttributeError`. -/
def parseOneComment (file_path : String) (c : Json) :
    Except PyErr (Option InlineComment) :=
  match c.pyIndex "line" with
  | .error e => .error e
  | .ok none => .ok none
  | .ok (some lineJ) =>
    match pyInt lineJ with
    | .error e => .error e
    | .ok none => .ok none
    | .ok (some lineI) =>
      match c.pyIndex "body" with
      | .error e => .error e
      | .ok none => .ok none
      | .ok (some bodyJ) =>
        match c.pyGet "category" (Json.str "SUGGESTION") with
        | .error e => .error e
        | .ok catJ =>
          match pyStrUpper catJ with
          | .error e => .error e
          | .ok catS =>
            match CommentCategory.ofValue? catS with
            | none => .ok none
            | some cat =>
              match c.pyGet "severity" (Json.str "INFO") with
              | .error e => .error e
              | .ok sevJ =>
                match pyStrUpper sevJ with
                | .error e => .error e
                | .ok sevS =>
                  match CommentSeverity.ofValue? sevS with
                  | none => .ok none
                  | some sev =>
                    .ok (some { path := file_path, line := lineI,
                                body := bodyJ, category := cat,
                                severity := sev })

/-- The comment loop over the elements of the `comments` array. -/
def parseCommentsGo (file_path : String) : List Json →
    Except PyErr (List InlineComment)
  | [] => .ok []
  | c :: rest =>
    match parseOneComment file_path c with
    | .error e => .error e
    | .ok c? =>
      match parseCommentsGo file_path rest with
      | .error e => .error e
      | .ok others =>
        .ok (match c? with | none => others | some ic => ic :: others)

/-- `for c in data.get("comments", []):` — iterating a JSON array
visits its elements; iterating a string or a dict visits
characters/keys, each of which then raises `TypeError` at `c["line"]`
(so any non-empty one errors); other values are not iterable. -/
def parseCommentList (file_path : String) (cj : Json) :
    Except PyErr (List InlineComment) :=
  match cj with
  | .arr elems => parseCommentsGo file_path elems
  | .str s => if s = "" then .ok [] else .error .typeError
  | .obj [] => .ok []
  | .obj (_ :: _) => .error .typeError
  | .null => .error .typeError
  | .bool _ => .error .typeError
  | .num _ => .error .typeError

/-- The response-validation tail shared verbatim by
`AnthropicProvider._parse_response` and `OllamaProvider._parse_response`
(the code after `json.loads`, textually identical in both files):
validate the comments, normalize the verdict, and build the result
dict. -/
def parseReviewData (data : Json) (file_path : String) :
    Except PyErr ParsedReview :=
  match data.pyGet "comments" (Json.arr []) with
  | .error e => .error e
  | .ok commentsJ =>
    match parseCommentList file_path commentsJ with
    | .error e => .error e
    | .ok comments =>
      match data.pyGet "verdict" (Json.str "comment") with
      | .error e => .error e
      | .ok verdictJ =>
        match pyStrLower verdictJ with
        | .error e => .error e
        | .ok v =>
          let verdict :=
            if v = "approve" ∨ v = "request_changes" ∨ v = "comment"
            then v else "comment"
          match data.pyGet "summary" (Json.str "No summary provided.") with
          | .error e => .error e
          | .ok summary =>
            .ok { summary := summary, verdict := verdict,
                  comments := comments }

/-- The `json_str` extraction of `AnthropicProvider._parse_response`:
the fenced-block group if the fenced regex matched, else the stripped
response text. -/
def anthropicJsonStr (reFenced : String → Option String)
    (response_text : String) : String :=
  match reFenced response_text with
  | some s => s
  | none => pyStrip response_text

/-- `AnthropicProvider._parse_response`: JSON-decode failure raises
`LLMResponseParseError` (a hard parse error). -/
def AnthropicProvider.parse_response (jsonLoads : String → Option Json)
    (reFenced : String → Option String)
    (response_text file_path : String) : Except PyErr ParsedReview :=
  match jsonLoads (anthropicJsonStr reFenced response_text) with
  | none => .error .parseError
  | some data => parseReviewData data file_path

/-- The `json_str` extraction of `OllamaProvider._parse_response`: the
fenced-block group, else the brace-delimited group, else the stripped
response text. -/
def ollamaJsonStr (reFenced reBraces : String → Option String)
    (response_text : String) : String :=
  match reFenced response_text with
  | some s => s
  | none =>
    match reBraces response_text with
    | some s => s
    | none => pyStrip response_text

/-- The fixed neutral fallback dict `OllamaProvider._parse_response`
returns on JSON-decode failure. -/
def ollamaFallback : ParsedReview :=
  { summary := .str
      "Unable to parse model response. Please review the changes manually.",
    verdict := "comment", comments := [] }

/-- `OllamaProvider._parse_response`: JSON-decode failure returns the
fixed neutral fallback instead of raising. -/
def OllamaProvider.parse_response (jsonLoads : String → Option Json)
    (reFenced reBraces : String → Option String)
    (response_text file_path : String) : Except PyErr ParsedReview :=
  match jsonLoads (ollamaJsonStr reFenced reBraces response_text) with
  | none => .ok ollamaFallback
  | some data => parseReviewData data file_path

/-- The keyword arguments `OllamaProvider.review_code` passes to the
`ReviewResponse` constructor (`ollama.py` lines 132-142). -/
def ollamaReviewResponseKwargs : List String :=
  ["summary", "verdict", "comments", "tokens_used", "model", "cost_usd",
   "tokens_input", "tokens_output", "latency_ms"]

/-- The declared fields of the `ReviewResponse` dataclass
(`llm/base.py` lines 45-54). -/
def reviewResponseFields : List String :=
  ["summary", "verdict", "comments", "tokens_used", "model", "cost_usd"]

/-- The tail of `OllamaProvider.review_code` after a successful HTTP
round-trip: parse the response text, then call the `ReviewResponse`
dataclass constructor with `ollamaReviewResponseKwargs`.  A Python
dataclass constructor raises `TypeError` on any keyword argument that
is not a declared field, so the call is modelled by the explicit field
check; the success branch is unreachable because three of the keyword
arguments are not fields. -/
def OllamaProvider.review_code_result (jsonLoads : String → Option Json)
    (reFenced reBraces : String → Option String)
    (response_text file_path : String) : Except PyErr ReviewResponse :=
  match OllamaProvider.parse_response jsonLoads reFenced reBraces
      response_text file_path with
  | .error e => .error e
  | .ok _parsed =>
    if h : (ollamaReviewResponseKwargs.all fun k =>
        reviewResponseFields.contains k) then
      absurd h (by decide)
    else .error .typeError

/-! ## The review pipeline (`review/pipeline.py`)

`ReviewPipeline.execute` is embedded as a pure function over an
environment that fixes the results of every external collaborator call
of one run: the fetched PR, the persistence lookup, the fetched diff,
the per-path file-content fetch (`none` models the caught per-file
failure), the LLM router call, and the host review submission.  Database
writes (create/mark-completed/mark-failed) mutate only the external
store and are not tracked; the observable effects the claims speak
about — fetching the diff, calling the review backend, submitting the
review — are collected in an `Effects` record.  Wall-clock latency is
abstracted by a fixed `elapsed_ms` environment value. -/

/-- The fields of the fetched `PullRequest` that `execute` uses. -/
structure PullRequest where
  title : String
  body : Option String
  head_sha : String
  base_sha : String
  html_url : String

/-- The columns of a stored `Review` row that the idempotency
short-circuit reads. -/
structure ReviewRecord where
  id : Nat
  status : String
  files_reviewed : Nat
  total_comments : Nat
  verdict : Option String
  summary : Option String
  model_used : Option String
  tokens_total : Nat
  cost_usd : ℚ
  github_review_id : Option Nat
  latency_ms : Option Nat

/-- `ReviewStatus.COMPLETED.value`. -/
def ReviewStatus.completed : String := "completed"

/-- `PipelineResult` dataclass. -/
structure PipelineResult where
  review_id : Option Nat
  pr_number : Nat
  pr_title : String
  files_reviewed : Nat
  total_comments : Nat
  verdict : String
  summary : String
  model_used : String
  total_tokens : Nat
  total_cost_usd : ℚ
  review_posted : Bool
  github_review_id : Option Nat := none
  latency_ms : Option Nat := none

/-- One per-line comment of a host review submission. -/
structure GitHubReviewComment where
  path : String
  line : Int
  body : Json
  side : String := "RIGHT"

/-- A host review submission (`github/models.py` `Review`). -/
structure GitHubReview where
  body : String
  event : String
  comments : List GitHubReviewComment

/-- Modelled from the spec: `src/services/review/formatter.py` is
missing from the source tree (only its tests and its importers are
present).  Per spec §4.2 step 8 the formatter is a pure function
mapping the aggregate into the host's review-submission shape:
approve → "APPROVE", request_changes → "REQUEST_CHANGES",
comment → "COMMENT", with a summary body mentioning the reviewed file
count and the per-line comments carried over. -/
def llm_response_to_github_review (r : ReviewResponse)
    (files_reviewed : Nat) : GitHubReview :=
  { body := r.summary ++ "\n\n" ++ toString files_reviewed ++
      " file(s) reviewed",
    event :=
      if r.verdict = "approve" then "APPROVE"
      else if r.verdict = "request_changes" then "REQUEST_CHANGES"
      else "COMMENT",
    comments := r.comments.map fun c =>
      { path := c.path, line := c.line, body := c.body } }

/-- The external collaborator results fixed for one `execute` run. -/
structure PipelineEnv where
  pr : PullRequest
  existing : Option ReviewRecord
  new_review_id : Nat
  diff : String
  file_content : String → Option String
  llm : ReviewRequest → Except String ReviewResponse
  create_review : Except String (Option Nat)
  max_files_per_review : Nat
  elapsed_ms : Nat

/-- The errors `execute` can finish with: an exception propagated
unchanged from a collaborator, or the `ReviewError` the pipeline itself
raises when posting fails. -/
inductive ExecErr where
  | propagated (msg : String)
  | reviewError (msg : String)
deriving DecidableEq

/-- The externally observable effects of one run. -/
structure Effects where
  fetched_diff : Bool
  llm_calls : List String
  submitted : Bool
deriving DecidableEq

/-- Python's falsy-based `x or default` on an optional string column
(`existing.verdict or "comment"` is `default` also for an empty
string). -/
def pyOrStr (o : Option String) (dflt : String) : String :=
  match o with
  | some s => if s = "" then dflt else s
  | none => dflt

/-- The idempotency lookup of `execute` step 2: the prior completed run
for this head SHA, when a session is attached, `skip_if_reviewed` is
set, a row exists and its status is `completed`. -/
def idempotentHit (env : PipelineEnv) (hasSession skip_if_reviewed : Bool) :
    Option ReviewRecord :=
  if hasSession ∧ skip_if_reviewed then
    match env.existing with
    | some ex => if ex.status = ReviewStatus.completed then some ex else none
    | none => none
  else none

/-- The `PipelineResult` returned verbatim from a prior completed run
(`pipeline.py` lines 130-144). -/
def resultFromExisting (pr_number : Nat) (pr : PullRequest)
    (ex : ReviewRecord) : PipelineResult :=
  { review_id := some ex.id, pr_number := pr_number, pr_title := pr.title,
    files_reviewed := ex.files_reviewed,
    total_comments := ex.total_comments,
    verdict := pyOrStr ex.verdict "comment",
    summary := pyOrStr ex.summary "Previously reviewed.",
    model_used := pyOrStr ex.model_used "",
    total_tokens := ex.tokens_total, total_cost_usd := ex.cost_usd,
    review_posted := ex.github_review_id.isSome,
    github_review_id := ex.github_review_id,
    latency_ms := ex.latency_ms }

/-- The short-circuit result when no in-scope files remain
(`pipeline.py` lines 168-180). -/
def noFilesResult (review_db_id : Option Nat) (pr_number : Nat)
    (pr : PullRequest) : PipelineResult :=
  { review_id := review_db_id, pr_number := pr_number,
    pr_title := pr.title, files_reviewed := 0, total_comments := 0,
    verdict := "approve",
    summary := "No Python files to review in this PR.", model_used := "",
    total_tokens := 0, total_cost_usd := 0, review_posted := false }

/-- The per-file `ReviewRequest` built in step 6. -/
def buildReviewRequest (env : PipelineEnv) (fd : FileDiff) : ReviewRequest :=
  { diff := fd.to_patch_string, file_path := fd.path,
    file_content := env.file_content fd.path,
    pr_title := some env.pr.title,
    pr_description := env.pr.body }

/-- The sequential per-file review loop of step 6: on an LLM failure the
run aborts with the exception; alongside, the ordered list of file paths
for which the backend was invoked.  Token halves are the source's
`response.tokens_used // 2` running estimate. -/
def reviewFiles (env : PipelineEnv) :
    List FileDiff → Except String (List ReviewResponse × Nat × Nat) × List String
  | [] => (.ok ([], 0, 0), [])
  | fd :: rest =>
    match env.llm (buildReviewRequest env fd) with
    | .error e => (.error e, [fd.path])
    | .ok resp =>
      match reviewFiles env rest with
      | (.error e, calls) => (.error e, fd.path :: calls)
      | (.ok (rs, ti, to2), calls) =>
        (.ok (resp :: rs, resp.tokens_used / 2 + ti,
              resp.tokens_used / 2 + to2), fd.path :: calls)

/-- The final `PipelineResult` of a full run (`pipeline.py` lines
308-322). -/
def finalResult (review_db_id : Option Nat) (pr_number : Nat)
    (pr : PullRequest) (nFiles : Nat) (aggregated : ReviewResponse)
    (post_review : Bool) (github_review_id : Option Nat)
    (latency_ms : Nat) : PipelineResult :=
  { review_id := review_db_id, pr_number := pr_number,
    pr_title := pr.title, files_reviewed := nFiles,
    total_comments := aggregated.comments.length,
    verdict := aggregated.verdict, summary := aggregated.summary,
    model_used := aggregated.model,
    total_tokens := aggregated.tokens_used,
    total_cost_usd := aggregated.cost_usd, review_posted := post_review,
    github_review_id := github_review_id,
    latency_ms := some latency_ms }

/-- Steps 6-10 of `execute` on the (already truncated) in-scope files:
review each file, aggregate, format, optionally submit — a submission
failure raises `ReviewError` wrapping the cause — and report. -/
def executeReviewPhase (env : PipelineEnv) (review_db_id : Option Nat)
    (pr_number : Nat) (post_review : Bool) (file_diffs : List FileDiff) :
    Except ExecErr PipelineResult × Effects :=
  match reviewFiles env file_diffs with
  | (.error e, calls) =>
    (.error (.propagated e),
     { fetched_diff := true, llm_calls := calls, submitted := false })
  | (.ok (responses, _tokens_input, _tokens_output), calls) =>
    let aggregated := aggregate_responses responses
    let latency_ms := env.elapsed_ms
    let _github_review :=
      llm_response_to_github_review aggregated file_diffs.length
    if post_review then
      match env.create_review with
      | .error e =>
        (.error (.reviewError ("Failed to post review: " ++ e)),
         { fetched_diff := true, llm_calls := calls, submitted := true })
      | .ok github_review_id =>
        (.ok (finalResult review_db_id pr_number env.pr file_diffs.length
          aggregated post_review github_review_id latency_ms),
         { fetched_diff := true, llm_calls := calls, submitted := true })
    else
      (.ok (finalResult review_db_id pr_number env.pr file_diffs.length
        aggregated post_review none latency_ms),
       { fetched_diff := true, llm_calls := calls, submitted := false })

/-- `ReviewPipeline.execute`: the idempotency short-circuit, the diff
fetch/parse/filter, the no-files short-circuit, the file-count
truncation (`settings.max_files_per_review`), and the review phase. -/
def execute (env : PipelineEnv) (hasSession : Bool) (pr_number : Nat)
    (post_review skip_if_reviewed : Bool) :
    Except ExecErr PipelineResult × Effects :=
  match idempotentHit env hasSession skip_if_reviewed with
  | some ex =>
    (.ok (resultFromExisting pr_number env.pr ex),
     { fetched_diff := false, llm_calls := [], submitted := false })
  | none =>
    let review_db_id : Option Nat :=
      if hasSession then some env.new_review_id else none
    let file_diffs := DiffParser.parse_and_filter_python env.diff
    if file_diffs.isEmpty then
      (.ok (noFilesResult review_db_id pr_number env.pr),
       { fetched_diff := true, llm_calls := [], submitted := false })
    else
      let file_diffs2 :=
        if file_diffs.length > env.max_files_per_review then
          file_diffs.take env.max_files_per_review
        else file_diffs
      executeReviewPhase env review_db_id pr_number post_review file_diffs2

/-! ## Concrete example inputs (spec §8 literal example) -/

/-- The literal example diff of spec §8. -/
def exampleDiff : String :=
  "diff --git a/a.py b/a.py\n--- a/a.py\n+++ b/a.py\n@@ -1,2 +1,3 @@\n line1\n-old\n+new1\n+new2"

/-- The spec §8 expected hunk. -/
def exampleHunk : Hunk :=
  { old_start := 1, old_count := 2, new_start := 1, new_count := 3,
    header := "@@ -1,2 +1,3 @@",
    lines :=
      [{ type := .context, content := "line1",
         old_line_no := some 1, new_line_no := some 1 },
       { type := .deletion, content := "old", old_line_no := some 2 },
       { type := .addition, content := "new1", new_line_no := some 2 },
       { type := .addition, content := "new2", new_line_no := some 3 }] }

/-- The spec §8 expected file diff. -/
def exampleFile : FileDiff :=
  { path := "a.py", status := .modified, old_path := none,
    hunks := [exampleHunk] }

/-- A sample per-file response with verdict `approve`. -/
def respApprove : ReviewResponse :=
  { summary := "Looks good.", verdict := "approve" }

/-- A sample per-file response with verdict `request_changes`. -/
def respChanges : ReviewResponse :=
  { summary := "Needs fixes.", verdict := "request_changes" }

/-- A sample fetched pull request. -/
def samplePR : PullRequest :=
  { title := "Test PR", body := some "Test description",
    head_sha := "abc123", base_sha := "def456",
    html_url := "https://example.test/pr/42" }

/-- A sample stored completed review row. -/
def sampleRecord : ReviewRecord :=
  { id := 7, status := "completed", files_reviewed := 2,
    total_comments := 3, verdict := some "comment", summary := some "done",
    model_used := some "m", tokens_total := 10, cost_usd := 0,
    github_review_id := some 99, latency_ms := some 5 }

/-- A sample one-file Python diff. -/
def samplePyDiff : String :=
  "diff --git a/main.py b/main.py\n--- a/main.py\n+++ b/main.py\n@@ -1,2 +1,3 @@\n def hello():\n-    x = 1\n+    x = 2\n+    return x"

/-- A sample diff touching two Python files. -/
def sampleTwoFileDiff : String :=
  "diff --git a/a.py b/a.py\n@@ -1 +1 @@\n+alpha\ndiff --git a/b.py b/b.py\n@@ -1 +1 @@\n+beta"

/-- Environment for the idempotent-replay witness: a completed prior
run exists for the head SHA. -/
def envReplay : PipelineEnv :=
  { pr := samplePR, existing := some sampleRecord, new_review_id := 1,
    diff := samplePyDiff, file_content := fun _ => none,
    llm := fun _ => .error "backend unavailable",
    create_review := .error "unreachable host", max_files_per_review := 20,
    elapsed_ms := 12 }

/-- Environment for the no-in-scope-files witness: the diff holds no
Python file. -/
def envNoFiles : PipelineEnv :=
  { pr := samplePR, existing := none, new_review_id := 1,
    diff := "no python files here", file_content := fun _ => none,
    llm := fun _ => .error "backend unavailable",
    create_review := .error "unreachable host", max_files_per_review := 20,
    elapsed_ms := 12 }

/-- Environment for the submission-failure witness: review succeeds,
posting fails. -/
def envSubmitFail : PipelineEnv :=
  { pr := samplePR, existing := none, new_review_id := 1,
    diff := samplePyDiff, file_content := fun _ => none,
    llm := fun _ => .ok respApprove, create_review := .error "boom",
    max_files_per_review := 20, elapsed_ms := 12 }

/-- Environment for the truncation witness: two in-scope files, a
maximum of one. -/
def envTruncate : PipelineEnv :=
  { pr := samplePR, existing := none, new_review_id := 1,
    diff := sampleTwoFileDiff, file_content := fun _ => none,
    llm := fun _ => .ok respApprove, create_review := .ok (some 123),
    max_files_per_review := 1, elapsed_ms := 12 }

/-! ## Theorems about the diff parser -/

lemma mem_get_new_line_numbers (h : Hunk) (n : Nat) :
    n ∈ h.get_new_line_numbers ↔
      ∃ l ∈ h.lines, l.type = .addition ∧ l.new_line_no = some n := by
  unfold Hunk.get_new_line_numbers
  rw [List.mem_filterMap]
  refine exists_congr fun l => and_congr_right fun _ => ?_
  cases hl : l.type <;> cases hn : l.new_line_no <;>
    simp [additionLineNo, hl, hn, eq_comm]

lemma pySortedSet_sorted (xs : List Nat) : (pySortedSet xs).Sorted (· < ·) := by
  have hs : (pySortedSet xs).Sorted (· ≤ ·) :=
    List.sorted_insertionSort (· ≤ ·) xs.dedup
  have hn : (pySortedSet xs).Nodup :=
    ((List.perm_insertionSort (· ≤ ·) xs.dedup).nodup_iff).mpr xs.nodup_dedup
  exact hs.lt_of_le hn

lemma mem_pySortedSet (xs : List Nat) (n : Nat) :
    n ∈ pySortedSet xs ↔ n ∈ xs :=
  ((List.perm_insertionSort (· ≤ ·) xs.dedup).mem_iff).trans (List.mem_dedup)

lemma parseStep_no_header {cs : List Char} (s : ParseState)
    (hm : matchFileHeader cs = none) (hc : s.cur = none) :
    parseStep s cs = s := by
  unfold parseStep
  rw [hm, hc]

lemma foldl_parseStep_no_header (ls : List (List Char))
    (hm : ∀ l ∈ ls, matchFileHeader l = none) :
    ls.foldl parseStep { files := [], cur := none, oldNo := 0, newNo := 0 } =
      { files := [], cur := none, oldNo := 0, newNo := 0 } := by
  induction ls with
  | nil => rfl
  | cons l ls ih =>
    rw [List.foldl_cons,
      parseStep_no_header _ (hm l (List.mem_cons_self l ls)) rfl]
    exact ih fun x hx => hm x (List.mem_cons_of_mem l hx)

/-- C4: `DiffParser.parse` is total — the embedding is a total function,
so every input returns normally — and it returns the empty sequence both
on empty/whitespace-only input and on any input none of whose lines
matches the `diff --git` file-header pattern. -/
theorem parse_returns_empty_cases (s : String) :
    (s.toList.all pyIsSpace = true → DiffParser.parse s = []) ∧
    ((∀ l ∈ splitLines s.toList, matchFileHeader l = none) →
      DiffParser.parse s = []) := by
  constructor
  · intro hb
    unfold DiffParser.parse
    rw [hb]
    rfl
  · intro hm
    unfold DiffParser.parse
    split
    · rfl
    · rw [foldl_parseStep_no_header _ hm]
      rfl

/-- Witness for C4 at concrete inputs: text with no `diff --git` marker
parses to the empty sequence, as does whitespace-only text. -/
theorem parse_returns_empty_cases_witness :
    DiffParser.parse "hello\nworld" = [] ∧ DiffParser.parse " \n  " = [] :=
  ⟨(parse_returns_empty_cases "hello\nworld").2 (by decide),
   (parse_returns_empty_cases " \n  ").1 (by decide)⟩

/-- C6: `get_changed_line_numbers` returns exactly the sorted,
de-duplicated list of new-file line numbers carried by addition lines
across all of the file's hunks: the result is strictly sorted (hence
duplicate-free) and its members are exactly those numbers. -/
theorem get_changed_line_numbers_spec (fd : FileDiff) :
    fd.get_changed_line_numbers.Sorted (· < ·) ∧
    ∀ n, n ∈ fd.get_changed_line_numbers ↔
      ∃ h ∈ fd.hunks, ∃ l ∈ h.lines,
        l.type = .addition ∧ l.new_line_no = some n := by
  refine ⟨pySortedSet_sorted _, fun n => ?_⟩
  rw [FileDiff.get_changed_line_numbers, mem_pySortedSet]
  simp only [List.mem_flatten, List.mem_map]
  constructor
  · rintro ⟨ns, ⟨h, hh, rfl⟩, hn⟩
    exact ⟨h, hh, (mem_get_new_line_numbers h n).mp hn⟩
  · rintro ⟨h, hh, hl⟩
    exact ⟨h.get_new_line_numbers, ⟨h, hh, rfl⟩,
      (mem_get_new_line_numbers h n).mpr hl⟩

lemma runLines_append {l : DiffLine} {e : Nat × Nat} :
    ∀ {ls : List DiffLine} {o n a b : Nat},
      runLines o n ls = some (a, b) → lineStep (a, b) l = some e →
      runLines o n (ls ++ [l]) = some e := by
  intro ls
  induction ls with
  | nil =>
    intro o n a b hrun hstep
    obtain ⟨e1, e2⟩ := e
    simp only [runLines, Option.some.injEq, Prod.mk.injEq] at hrun
    obtain ⟨rfl, rfl⟩ := hrun
    simp only [List.nil_append, runLines, hstep]
  | cons x xs ih =>
    intro o n a b hrun hstep
    simp only [runLines] at hrun ⊢
    cases hx : lineStep (o, n) x with
    | none => rw [hx] at hrun; exact absurd hrun (by simp)
    | some p =>
      rw [hx] at hrun
      cases p
      exact ih hrun hstep

lemma lineStep_newNo_le {o n o' n' : Nat} {l : DiffLine}
    (h : lineStep (o, n) l = some (o', n')) : n ≤ n' := by
  unfold lineStep at h
  split at h <;> split at h <;> simp_all <;> omega

lemma lineStep_addition {o n o' n' m : Nat} {l : DiffLine}
    (h : lineStep (o, n) l = some (o', n'))
    (ha : additionLineNo l = some m) : m = n ∧ n' = n + 1 := by
  unfold additionLineNo at ha
  unfold lineStep at h
  cases hl : l.type <;> rw [hl] at ha h <;>
    cases hn : l.new_line_no <;> rw [hn] at ha h <;> simp_all

lemma runLines_additions :
    ∀ (ls : List DiffLine) (o n : Nat) (e : Nat × Nat),
      runLines o n ls = some e →
      (ls.filterMap additionLineNo).Pairwise (· < ·) ∧
      ∀ x ∈ ls.filterMap additionLineNo, n ≤ x := by
  intro ls
  induction ls with
  | nil => simp
  | cons l ls ih =>
    intro o n e hrun
    simp only [runLines] at hrun
    cases hx : lineStep (o, n) l with
    | none => rw [hx] at hrun; exact absurd hrun (by simp)
    | some p =>
      obtain ⟨o', n'⟩ := p
      rw [hx] at hrun
      obtain ⟨hp, hb⟩ := ih o' n' e hrun
      have hle : n ≤ n' := lineStep_newNo_le hx
      cases ha : additionLineNo l with
      | none =>
        simp only [List.filterMap_cons, ha]
        exact ⟨hp, fun x hx' => le_trans hle (hb x hx')⟩
      | some m =>
        obtain ⟨rfl, rfl⟩ := lineStep_addition hx ha
        simp only [List.filterMap_cons, ha]
        refine ⟨List.Pairwise.cons (fun x hx' => ?_) hp, fun x hx' => ?_⟩
        · exact lt_of_lt_of_le (Nat.lt_succ_self m) (hb x hx')
        · rcases List.mem_cons.mp hx' with rfl | hx'
          · exact le_refl x
          · exact le_trans (Nat.le_succ m) (hb x hx')

lemma curOK_close_hunks {cf : CurFile} {o n : Nat} (hc : CurOK cf o n) :
    ∀ h ∈ cf.close.hunks, HunkNumbered h := by
  intro h hh
  rcases List.mem_append.mp hh with hh | hh
  · exact hc.1 h hh
  · cases hch : cf.curHunk with
    | none => rw [hch] at hh; simp at hh
    | some h0 =>
      rw [hch] at hh
      simp at hh
      subst hh
      exact ⟨_, hc.2 _ hch⟩

lemma curOK_same_fields {cf cf' : CurFile} {o n : Nat} (h : CurOK cf o n)
    (hh : cf'.hunks = cf.hunks) (hc : cf'.curHunk = cf.curHunk) :
    CurOK cf' o n :=
  ⟨fun hk hmem => h.1 hk (hh ▸ hmem), fun hk hck => h.2 hk (hc ▸ hck)⟩

lemma curOK_push {cf : CurFile} {o n : Nat} {h0 : Hunk}
    (hch : cf.curHunk = some h0) (hinv : CurOK cf o n) {l : DiffLine}
    {o' n' : Nat} (hstep : lineStep (o, n) l = some (o', n')) :
    CurOK (cf.pushLine h0 l) o' n' := by
  refine ⟨fun hk hmem => hinv.1 hk ?_, fun hk hck => ?_⟩
  · simpa [CurFile.pushLine] using hmem
  · simp only [CurFile.pushLine] at hck
    injection hck with hck
    subst hck
    exact runLines_append (hinv.2 h0 hch) hstep

lemma stateInv_parseStep {s : ParseState} (cs : List Char)
    (hs : StateInv s) : StateInv (parseStep s cs) := by
  obtain ⟨hfiles, hcur⟩ := hs
  unfold parseStep
  split
  next oldP newP heq =>
    refine ⟨fun fd hfd h hh => ?_, fun cf hcf => ?_⟩
    · rcases List.mem_append.mp hfd with hfd | hfd
      · exact hfiles fd hfd h hh
      · cases hc : s.cur with
        | none => rw [hc] at hfd; simp at hfd
        | some cf =>
          rw [hc] at hfd
          simp at hfd
          subst hfd
          exact curOK_close_hunks (hcur cf hc) h hh
    · obtain rfl : _ = cf := Option.some.inj hcf
      exact ⟨fun h hh => by simp at hh, fun h hch => by simp at hch⟩
  next hm =>
    split
    next hc => exact ⟨hfiles, hcur⟩
    next cf hc =>
      split
      next p hp =>
        refine ⟨hfiles, fun cf' hcf' => ?_⟩
        obtain rfl : _ = cf' := Option.some.inj hcf'
        split
        · exact curOK_same_fields (hcur cf hc) rfl rfl
        · exact hcur cf hc
      next hp =>
        split
        next p hq =>
          refine ⟨hfiles, fun cf' hcf' => ?_⟩
          obtain rfl : _ = cf' := Option.some.inj hcf'
          split
          · exact curOK_same_fields (hcur cf hc) rfl rfl
          · split
            · exact curOK_same_fields (hcur cf hc) rfl rfl
            · exact hcur cf hc
        next hq =>
          split
          next os ocnt ns ncnt hk =>
            refine ⟨hfiles, fun cf' hcf' => ?_⟩
            obtain rfl : _ = cf' := Option.some.inj hcf'
            refine ⟨fun h hh => ?_, fun h hch => ?_⟩
            · exact curOK_close_hunks (hcur cf hc) h hh
            · injection hch with hch
              subst hch
              rfl
          next hk =>
            split
            next hopen => exact ⟨hfiles, hcur⟩
            next h0 hopen =>
              split
              · exact ⟨hfiles, hcur⟩
              · split
                · refine ⟨hfiles, fun cf' hcf' => ?_⟩
                  obtain rfl : _ = cf' := Option.some.inj hcf'
                  exact curOK_push hopen (hcur cf hc) (by simp [lineStep])
                · split
                  · refine ⟨hfiles, fun cf' hcf' => ?_⟩
                    obtain rfl : _ = cf' := Option.some.inj hcf'
                    exact curOK_push hopen (hcur cf hc) (by simp [lineStep])
                  · split
                    · refine ⟨hfiles, fun cf' hcf' => ?_⟩
                      obtain rfl : _ = cf' := Option.some.inj hcf'
                      exact curOK_push hopen (hcur cf hc) (by simp [lineStep])
                    · exact ⟨hfiles, hcur⟩

lemma stateInv_foldl (ls : List (List Char)) (s : ParseState)
    (hs : StateInv s) : StateInv (ls.foldl parseStep s) := by
  induction ls generalizing s with
  | nil => exact hs
  | cons l ls ih => exact ih _ (stateInv_parseStep l hs)

lemma parse_hunks_numbered {input : String} {fd : FileDiff} {h : Hunk}
    (hfd : fd ∈ DiffParser.parse input) (hh : h ∈ fd.hunks) :
    HunkNumbered h := by
  unfold DiffParser.parse at hfd
  split at hfd
  · simp at hfd
  · have hinv := stateInv_foldl (splitLines input.toList)
      { files := [], cur := none, oldNo := 0, newNo := 0 }
      ⟨fun fd' hfd' => by simp at hfd', fun cf hcf => by simp at hcf⟩
    set st := (splitLines input.toList).foldl parseStep
      { files := [], cur := none, oldNo := 0, newNo := 0 } with hst
    rcases List.mem_append.mp hfd with hfd | hfd
    · exact hinv.1 fd hfd h hh
    · cases hc : st.cur with
      | none => rw [hc] at hfd; simp at hfd
      | some cf =>
        rw [hc] at hfd
        simp at hfd
        subst hfd
        exact curOK_close_hunks (hinv.2 cf hc) h hh

/-- C5: for every hunk produced by `DiffParser.parse`, the new-file line
numbers of its addition lines are strictly increasing in order of
appearance and start counting at the hunk's declared `new_start`: every
addition number is at least `new_start`, and the hunk's recorded numbers
replay exactly (`runLines`) from the header's start counters, with
context lines advancing both counters, additions only the new counter
and deletions only the old counter. -/
theorem parse_hunk_addition_line_numbers (input : String) (fd : FileDiff)
    (h : Hunk) (hfd : fd ∈ DiffParser.parse input) (hh : h ∈ fd.hunks) :
    h.get_new_line_numbers.Pairwise (· < ·) ∧
    (∀ x ∈ h.get_new_line_numbers, h.new_start ≤ x) ∧
    ∃ e, runLines h.old_start h.new_start h.lines = some e := by
  obtain ⟨e, he⟩ := parse_hunks_numbered hfd hh
  obtain ⟨hp, hb⟩ := runLines_additions h.lines h.old_start h.new_start e he
  exact ⟨hp, hb, e, he⟩

/-- Witness for C5 on the spec §8 example diff, whose single hunk
carries additions numbered 2 and 3 from `new_start = 1`. -/
theorem parse_hunk_addition_line_numbers_witness :
    exampleHunk.get_new_line_numbers.Pairwise (· < ·) ∧
    (∀ x ∈ exampleHunk.get_new_line_numbers, exampleHunk.new_start ≤ x) ∧
    ∃ e, runLines exampleHunk.old_start exampleHunk.new_start
      exampleHunk.lines = some e :=
  parse_hunk_addition_line_numbers exampleDiff exampleFile exampleHunk
    (by decide) (by decide)

/-! ## Theorems about aggregation -/

/-- C2: for every non-empty list of per-file responses the aggregated
verdict follows severity precedence: any `request_changes` makes the
overall verdict `request_changes`; otherwise any `comment` makes it
`comment`; otherwise it is `approve`. -/
theorem aggregate_verdict_precedence (rs : List ReviewResponse)
    (hne : rs ≠ []) :
    ((∃ r ∈ rs, r.verdict = "request_changes") →
      (aggregate_responses rs).verdict = "request_changes") ∧
    ((∀ r ∈ rs, r.verdict ≠ "request_changes") →
      (∃ r ∈ rs, r.verdict = "comment") →
      (aggregate_responses rs).verdict = "comment") ∧
    ((∀ r ∈ rs, r.verdict ≠ "request_changes" ∧ r.verdict ≠ "comment") →
      (aggregate_responses rs).verdict = "approve") := by
  cases rs with
  | nil => exact absurd rfl hne
  | cons r0 rest =>
    refine ⟨fun hex => ?_, fun hno hex => ?_, fun hall => ?_⟩
    · have hmem : "request_changes" ∈ (r0 :: rest).map (·.verdict) := by
        obtain ⟨r, hr, hv⟩ := hex
        exact List.mem_map.mpr ⟨r, hr, hv⟩
      simp only [aggregate_responses]
      rw [if_pos hmem]
    · have h1 : "request_changes" ∉ (r0 :: rest).map (·.verdict) := by
        intro hmem
        obtain ⟨r, hr, hv⟩ := List.mem_map.mp hmem
        exact hno r hr hv
      have h2 : "comment" ∈ (r0 :: rest).map (·.verdict) := by
        obtain ⟨r, hr, hv⟩ := hex
        exact List.mem_map.mpr ⟨r, hr, hv⟩
      simp only [aggregate_responses]
      rw [if_neg h1, if_pos h2]
    · have h1 : "request_changes" ∉ (r0 :: rest).map (·.verdict) := by
        intro hmem
        obtain ⟨r, hr, hv⟩ := List.mem_map.mp hmem
        exact (hall r hr).1 hv
      have h2 : "comment" ∉ (r0 :: rest).map (·.verdict) := by
        intro hmem
        obtain ⟨r, hr, hv⟩ := List.mem_map.mp hmem
        exact (hall r hr).2 hv
      simp only [aggregate_responses]
      rw [if_neg h1, if_neg h2]

/-- Witness for C2 on the spec's example
`[approve, request_changes, approve]`, which aggregates to
`request_changes`. -/
theorem aggregate_verdict_precedence_witness :
    (aggregate_responses [respApprove, respChanges, respApprove]).verdict =
      "request_changes" :=
  (aggregate_verdict_precedence [respApprove, respChanges, respApprove]
    (by simp)).1 ⟨respChanges, by simp, rfl⟩

/-! ## Theorems about provider response parsing -/

lemma parseReviewData_verdict {data : Json} {path : String}
    {r : ParsedReview} (h : parseReviewData data path = .ok r) :
    r.verdict = "approve" ∨ r.verdict = "request_changes" ∨
      r.verdict = "comment" := by
  unfold parseReviewData at h
  split at h
  · exact absurd h (by simp)
  · split at h
    · exact absurd h (by simp)
    · split at h
      · exact absurd h (by simp)
      · split at h
        · exact absurd h (by simp)
        · split at h
          · rename_i hv
            split at h
            · exact absurd h (by simp)
            · injection h with h
              subst h
              simpa using hv
          · split at h
            · exact absurd h (by simp)
            · injection h with h
              subst h
              simp

/-- C10: for both providers, whenever `_parse_response` completes
normally — in particular whenever the backend's JSON response decodes
successfully — the parsed verdict is one of `approve`,
`request_changes`, `comment`: the value is lowercased and anything
absent or unrecognized is normalized to `comment`. -/
theorem provider_verdict_normalized (jsonLoads : String → Option Json)
    (reFenced reBraces : String → Option String)
    (response_text file_path : String) (r : ParsedReview) :
    (AnthropicProvider.parse_response jsonLoads reFenced response_text
        file_path = .ok r →
      r.verdict = "approve" ∨ r.verdict = "request_changes" ∨
        r.verdict = "comment") ∧
    (OllamaProvider.parse_response jsonLoads reFenced reBraces
        response_text file_path = .ok r →
      r.verdict = "approve" ∨ r.verdict = "request_changes" ∨
        r.verdict = "comment") := by
  constructor
  · intro h
    unfold AnthropicProvider.parse_response at h
    split at h
    · exact absurd h (by simp)
    · exact parseReviewData_verdict h
  · intro h
    unfold OllamaProvider.parse_response at h
    split at h
    · injection h with h
      subst h
      exact Or.inr (Or.inr rfl)
    · exact parseReviewData_verdict h

/-- Witness for C10: a backend response decoding to the empty JSON
object parses, for either provider, to verdict `comment`. -/
theorem provider_verdict_normalized_witness :
    ({ summary := Json.str "No summary provided.", verdict := "comment",
       comments := [] } : ParsedReview).verdict = "approve" ∨
    ({ summary := Json.str "No summary provided.", verdict := "comment",
       comments := [] } : ParsedReview).verdict = "request_changes" ∨
    ({ summary := Json.str "No summary provided.", verdict := "comment",
       comments := [] } : ParsedReview).verdict = "comment" :=
  (provider_verdict_normalized (fun _ => some (Json.obj []))
    (fun _ => none) (fun _ => none) "x" "f.py"
    { summary := Json.str "No summary provided.", verdict := "comment",
      comments := [] }).1 rfl

/-- C7: when the extracted response text of a successful Ollama call is
not decodable as JSON, `_parse_response` does return the fixed neutral
fallback dict (fixed summary, verdict `comment`, no comments) — but
`review_code` then passes `tokens_input`, `tokens_output` and
`latency_ms` keyword arguments to the `ReviewResponse` dataclass, which
declares no such fields, so the call raises `TypeError` instead of
returning the neutral response.  Evaluated here at the failing input
`response_text = "not json"` with a decoder that fails on it. -/
theorem ollama_unparseable_response_type_error :
    OllamaProvider.parse_response (fun _ => none) (fun _ => none)
        (fun _ => none) "not json" "main.py" = .ok ollamaFallback ∧
    OllamaProvider.review_code_result (fun _ => none) (fun _ => none)
        (fun _ => none) "not json" "main.py" = .error .typeError :=
  ⟨rfl, rfl⟩

/-! ## Theorems about the pipeline -/

lemma reviewFiles_ok (env : PipelineEnv) (fds : List FileDiff)
    (h : ∀ fd ∈ fds, ∃ r, env.llm (buildReviewRequest env fd) = .ok r) :
    (∃ val, (reviewFiles env fds).1 = .ok val) ∧
    (reviewFiles env fds).2 = fds.map (·.path) := by
  induction fds with
  | nil => exact ⟨⟨([], 0, 0), rfl⟩, rfl⟩
  | cons fd rest ih =>
    obtain ⟨r, hr⟩ := h fd (List.mem_cons_self fd rest)
    obtain ⟨⟨val, hval⟩, hcalls⟩ :=
      ih fun x hx => h x (List.mem_cons_of_mem fd hx)
    rcases hrf : reviewFiles env rest with ⟨fst, snd⟩
    rw [hrf] at hval hcalls
    obtain rfl : fst = .ok val := hval
    obtain rfl : snd = rest.map (·.path) := hcalls
    obtain ⟨rs, ti, to2⟩ := val
    simp only [reviewFiles, hr, hrf]
    exact ⟨⟨_, rfl⟩, by simp⟩

/-- C1: with a session attached and `skip_if_reviewed` set, when the
store holds a prior run for this head SHA whose status is `completed`,
`execute` short-circuits: it returns a `PipelineResult` built from the
stored row's fields, and in that call the diff is never fetched, the
review backend is never invoked and no review is submitted. -/
theorem execute_idempotent_short_circuit (env : PipelineEnv)
    (pr_number : Nat) (post_review : Bool) (ex : ReviewRecord)
    (hex : env.existing = some ex)
    (hst : ex.status = ReviewStatus.completed) :
    execute env true pr_number post_review true =
      (.ok { review_id := some ex.id, pr_number := pr_number,
             pr_title := env.pr.title,
             files_reviewed := ex.files_reviewed,
             total_comments := ex.total_comments,
             verdict := pyOrStr ex.verdict "comment",
             summary := pyOrStr ex.summary "Previously reviewed.",
             model_used := pyOrStr ex.model_used "",
             total_tokens := ex.tokens_total,
             total_cost_usd := ex.cost_usd,
             review_posted := ex.github_review_id.isSome,
             github_review_id := ex.github_review_id,
             latency_ms := ex.latency_ms },
       { fetched_diff := false, llm_calls := [], submitted := false }) := by
  have hhit : idempotentHit env true true = some ex := by
    simp [idempotentHit, hex, hst]
  unfold execute
  rw [hhit]
  rfl

/-- C3: when parsing and filtering leave zero in-scope files (and the
idempotency lookup did not short-circuit the call), `execute` returns
the fixed `PipelineResult` — zero files and comments, verdict
`approve`, the fixed summary, zero tokens and cost, `review_posted`
false — and the review backend is never invoked and nothing is
submitted. -/
theorem execute_no_in_scope_files (env : PipelineEnv) (hasSession : Bool)
    (pr_number : Nat) (post_review skip_if_reviewed : Bool)
    (hsc : idempotentHit env hasSession skip_if_reviewed = none)
    (hpf : DiffParser.parse_and_filter_python env.diff = []) :
    execute env hasSession pr_number post_review skip_if_reviewed =
      (.ok { review_id :=
               if hasSession then some env.new_review_id else none,
             pr_number := pr_number, pr_title := env.pr.title,
             files_reviewed := 0, total_comments := 0,
             verdict := "approve",
             summary := "No Python files to review in this PR.",
             model_used := "", total_tokens := 0, total_cost_usd := 0,
             review_posted := false, github_review_id := none,
             latency_ms := none },
       { fetched_diff := true, llm_calls := [], submitted := false }) := by
  unfold execute
  rw [hsc]
  simp only [hpf]
  rfl

/-- C8: when `post_review` is set, the run reaches submission (the
idempotency lookup missed, in-scope files remain, every backend call
succeeded) and the host submission fails, `execute` finishes with a
`ReviewError` wrapping the underlying cause — never a normal
`PipelineResult` — and the submission attempt is recorded. -/
theorem execute_submission_failure_raises (env : PipelineEnv)
    (hasSession : Bool) (pr_number : Nat) (skip_if_reviewed : Bool)
    (e : String)
    (hsc : idempotentHit env hasSession skip_if_reviewed = none)
    (hne : DiffParser.parse_and_filter_python env.diff ≠ [])
    (hllm : ∀ fd ∈ DiffParser.parse_and_filter_python env.diff,
      ∃ r, env.llm (buildReviewRequest env fd) = .ok r)
    (hcr : env.create_review = .error e) :
    (execute env hasSession pr_number true skip_if_reviewed).1 =
      .error (.reviewError ("Failed to post review: " ++ e)) ∧
    (execute env hasSession pr_number true skip_if_reviewed).2.submitted =
      true := by
  unfold execute
  rw [hsc]
  have hemp : (DiffParser.parse_and_filter_python env.diff).isEmpty = false := by
    simpa [List.isEmpty_iff] using hne
  simp only [hemp, Bool.false_eq_true, if_false]
  set fds2 := if (DiffParser.parse_and_filter_python env.diff).length >
      env.max_files_per_review then
      (DiffParser.parse_and_filter_python env.diff).take
        env.max_files_per_review
    else DiffParser.parse_and_filter_python env.diff with hfds2
  have hllm2 : ∀ fd ∈ fds2, ∃ r, env.llm (buildReviewRequest env fd) = .ok r := by
    intro fd hfd
    refine hllm fd ?_
    rw [hfds2] at hfd
    split at hfd
    · exact List.take_subset _ _ hfd
    · exact hfd
  obtain ⟨⟨val, hval⟩, hcalls⟩ := reviewFiles_ok env fds2 hllm2
  rcases hrf : reviewFiles env fds2 with ⟨fst, snd⟩
  rw [hrf] at hval hcalls
  obtain rfl : fst = .ok val := hval
  obtain ⟨rs, ti, to2⟩ := val
  unfold executeReviewPhase
  rw [hrf, hcr]
  exact ⟨rfl, rfl⟩

/-- C9: when the in-scope file count exceeds the configured maximum
(and the run proceeds: no idempotent hit, all backend calls succeed,
submission — when requested — succeeds), `execute` does not fail: the
review backend is invoked exactly for the first maximum-many files in
original diff order, and the returned result reports the truncated
count as `files_reviewed`. -/
theorem execute_truncates_to_max (env : PipelineEnv) (hasSession : Bool)
    (pr_number : Nat) (post_review skip_if_reviewed : Bool)
    (hsc : idempotentHit env hasSession skip_if_reviewed = none)
    (hgt : env.max_files_per_review <
      (DiffParser.parse_and_filter_python env.diff).length)
    (hllm : ∀ fd ∈ DiffParser.parse_and_filter_python env.diff,
      ∃ r, env.llm (buildReviewRequest env fd) = .ok r)
    (hsub : post_review = true → ∃ gid, env.create_review = .ok gid) :
    (execute env hasSession pr_number post_review skip_if_reviewed).2.llm_calls =
      ((DiffParser.parse_and_filter_python env.diff).take
        env.max_files_per_review).map (·.path) ∧
    ∃ res,
      (execute env hasSession pr_number post_review skip_if_reviewed).1 =
        .ok res ∧ res.files_reviewed = env.max_files_per_review := by
  unfold execute
  rw [hsc]
  have hne : DiffParser.parse_and_filter_python env.diff ≠ [] := by
    intro h0
    rw [h0] at hgt
    exact absurd hgt (by simp)
  have hemp : (DiffParser.parse_and_filter_python env.diff).isEmpty = false := by
    simpa [List.isEmpty_iff] using hne
  simp only [hemp, Bool.false_eq_true, if_false]
  have htr : (if (DiffParser.parse_and_filter_python env.diff).length >
      env.max_files_per_review then
      (DiffParser.parse_and_filter_python env.diff).take
        env.max_files_per_review
    else DiffParser.parse_and_filter_python env.diff) =
      (DiffParser.parse_and_filter_python env.diff).take
        env.max_files_per_review := if_pos hgt
  rw [htr]
  have hlen : ((DiffParser.parse_and_filter_python env.diff).take
      env.max_files_per_review).length = env.max_files_per_review := by
    rw [List.length_take]
    exact Nat.min_eq_left (Nat.le_of_lt hgt)
  have hllm2 : ∀ fd ∈ (DiffParser.parse_and_filter_python env.diff).take
      env.max_files_per_review,
      ∃ r, env.llm (buildReviewRequest env fd) = .ok r :=
    fun fd hfd => hllm fd (List.take_subset _ _ hfd)
  obtain ⟨⟨val, hval⟩, hcalls⟩ := reviewFiles_ok env _ hllm2
  rcases hrf : reviewFiles env ((DiffParser.parse_and_filter_python
    env.diff).take env.max_files_per_review) with ⟨fst, snd⟩
  rw [hrf] at hval hcalls
  obtain rfl : fst = .ok val := hval
  obtain rfl : snd = _ := hcalls
  obtain ⟨rs, ti, to2⟩ := val
  unfold executeReviewPhase
  rw [hrf]
  cases hp : post_review with
  | false => exact ⟨rfl, _, rfl, hlen⟩
  | true =>
    obtain ⟨gid, hgid⟩ := hsub hp
    rw [hgid]
    exact ⟨rfl, _, rfl, hlen⟩

/-- Witness for C1: a run against a store holding a completed prior
review returns that row's fields and performs no fetch, review or
submission. -/
theorem execute_idempotent_short_circuit_witness :
    execute envReplay true 42 true true =
      (.ok { review_id := some 7, pr_number := 42, pr_title := "Test PR",
             files_reviewed := 2, total_comments := 3,
             verdict := "comment", summary := "done", model_used := "m",
             total_tokens := 10, total_cost_usd := 0,
             review_posted := true, github_review_id := some 99,
             latency_ms := some 5 },
       { fetched_diff := false, llm_calls := [], submitted := false }) :=
  execute_idempotent_short_circuit envReplay 42 true sampleRecord rfl rfl

/-- Witness for C3: a diff with no Python files yields the fixed
approve result and no backend call. -/
theorem execute_no_in_scope_files_witness :
    execute envNoFiles false 42 true true =
      (.ok { review_id := none, pr_number := 42, pr_title := "Test PR",
             files_reviewed := 0, total_comments := 0,
             verdict := "approve",
             summary := "No Python files to review in this PR.",
             model_used := "", total_tokens := 0, total_cost_usd := 0,
             review_posted := false, github_review_id := none,
             latency_ms := none },
       { fetched_diff := true, llm_calls := [], submitted := false }) :=
  execute_no_in_scope_files envNoFiles false 42 true true rfl rfl

/-- Witness for C8: a failing host submission after a successful review
surfaces as a wrapped `ReviewError`. -/
theorem execute_submission_failure_raises_witness :
    (execute envSubmitFail false 42 true true).1 =
      .error (.reviewError "Failed to post review: boom") ∧
    (execute envSubmitFail false 42 true true).2.submitted = true :=
  execute_submission_failure_raises envSubmitFail false 42 true "boom" rfl
    (by decide) (fun _ _ => ⟨respApprove, rfl⟩) rfl

/-- Witness for C9: two in-scope files against a maximum of one — only
the first file is reviewed and `files_reviewed` is 1. -/
theorem execute_truncates_to_max_witness :
    (execute envTruncate false 42 false true).2.llm_calls = ["a.py"] ∧
    ∃ res, (execute envTruncate false 42 false true).1 = .ok res ∧
      res.files_reviewed = 1 :=
  execute_truncates_to_max envTruncate false 42 false true rfl (by decide)
    (fun _ _ => ⟨respApprove, rfl⟩) (fun h => nomatch h)

end CodeRev
